import Mathlib

/-!
Verification of `scripts/run_daily.py` (daily growth-log automation job).

This file shallowly embeds the parts of the script that the specification's
claims are about:

* the robust-JSON-parse fallback in `generate_profit_module`
  (`json.loads`, then a substring from the first `\x7b` to the last `\x7d`),
  modelled by a strict JSON parser `pyParse` over `List Char` (Python's
  `json.loads` is a strict JSON parser; we also accept the nonstandard
  `NaN`/`Infinity`/`-Infinity` literals that Python accepts);
* the profit opportunity pool state machine (`init_profit_state`,
  `is_review_day`, `active_opps`, `clamp_active_to_two`, and the merge of the
  model-proposed `updated_state` performed inside `generate_profit_module`);
* the persistence order of `main` (which artifacts are written when a stage
  fails).

Dates are abstracted as integer day numbers (ISO date strings stand in
bijection with day ordinals, and the script only compares dates by elapsed
days); machine-level details (HTTP transport, file system paths) are
abstracted to explicit inputs.
-/

namespace RunDaily

/-- A parsed Python/JSON value, as produced by `json.loads`.  Numbers keep
their source lexeme (the script never does arithmetic on parsed numbers). -/
inductive PyJson where
  | null
  | bool (b : Bool)
  | num (lexeme : String)
  | str (s : String)
  | arr (elems : List PyJson)
  | obj (fields : List (String × PyJson))

/-- JSON whitespace, as accepted by Python's `json` module. -/
def isWs (c : Char) : Bool :=
  c == ' ' || c == '\t' || c == '\n' || c == '\r'

/-- Drop leading JSON whitespace. -/
def skipWs : List Char → List Char
  | [] => []
  | c :: rest => if isWs c then skipWs rest else c :: rest

/-- Value of a hexadecimal digit. -/
def hexDigit (c : Char) : Option Nat :=
  if '0' ≤ c ∧ c ≤ '9' then some (c.toNat - '0'.toNat)
  else if 'a' ≤ c ∧ c ≤ 'f' then some (c.toNat - 'a'.toNat + 10)
  else if 'A' ≤ c ∧ c ≤ 'F' then some (c.toNat - 'A'.toNat + 10)
  else none

/-- Parse the body of a JSON string (after the opening quote), handling the
escapes `json.loads` accepts and rejecting raw control characters.  Returns
the decoded characters and the remaining input. -/
def parseStringBody : List Char → List Char → Option (List Char × List Char)
  | _, [] => none
  | acc, '\"' :: rest => some (acc.reverse, rest)
  | acc, '\\' :: '\"' :: rest => parseStringBody ('\"' :: acc) rest
  | acc, '\\' :: '\\' :: rest => parseStringBody ('\\' :: acc) rest
  | acc, '\\' :: '/' :: rest => parseStringBody ('/' :: acc) rest
  | acc, '\\' :: 'b' :: rest => parseStringBody ('\x08' :: acc) rest
  | acc, '\\' :: 'f' :: rest => parseStringBody ('\x0c' :: acc) rest
  | acc, '\\' :: 'n' :: rest => parseStringBody ('\n' :: acc) rest
  | acc, '\\' :: 'r' :: rest => parseStringBody ('\x0d' :: acc) rest
  | acc, '\\' :: 't' :: rest => parseStringBody ('\t' :: acc) rest
  | acc, '\\' :: 'u' :: h1 :: h2 :: h3 :: h4 :: rest =>
    match hexDigit h1, hexDigit h2, hexDigit h3, hexDigit h4 with
    | some a, some b, some c, some d =>
      parseStringBody (Char.ofNat (a * 4096 + b * 256 + c * 16 + d) :: acc) rest
    | _, _, _, _ => none
  | _, '\\' :: _ => none
  | acc, c :: rest =>
    if c.toNat < 32 then none else parseStringBody (c :: acc) rest

/-- Take a maximal run of decimal digits. -/
def takeDigits : List Char → List Char × List Char
  | [] => ([], [])
  | c :: rest =>
    if c.isDigit then
      let (ds, r) := takeDigits rest
      (c :: ds, r)
    else ([], c :: rest)

/-- Optional fraction part of a JSON number. -/
def parseFracOpt (s : List Char) : Option (List Char × List Char) :=
  match s with
  | '.' :: rest =>
    match rest with
    | c :: rest2 =>
      if c.isDigit then
        let (ds, r) := takeDigits rest2
        some ('.' :: c :: ds, r)
      else none
    | [] => none
  | _ => some ([], s)

/-- Optional exponent part of a JSON number. -/
def parseExpOpt (s : List Char) : Option (List Char × List Char) :=
  match s with
  | e :: rest =>
    if e == 'e' || e == 'E' then
      let (sign, rest2) :=
        match rest with
        | '+' :: r => ((['+'] : List Char), r)
        | '-' :: r => ((['-'] : List Char), r)
        | _ => ([], rest)
      match rest2 with
      | c :: rest3 =>
        if c.isDigit then
          let (ds, r) := takeDigits rest3
          some (e :: (sign ++ c :: ds), r)
        else none
      | [] => none
    else some ([], s)
  | [] => some ([], [])

/-- Parse a JSON number (its lexeme), per the grammar `json.loads` uses:
`-? (0 | [1-9][0-9]*) frac? exp?`. -/
def parseNumber (s : List Char) : Option (List Char × List Char) :=
  let (neg, s1) :=
    match s with
    | '-' :: r => ((['-'] : List Char), r)
    | _ => ([], s)
  match s1 with
  | [] => none
  | c :: rest =>
    if c.isDigit then
      let (intPart, r1) :=
        if c == '0' then ((['0'] : List Char), rest)
        else
          let (ds, r) := takeDigits rest
          (c :: ds, r)
      match parseFracOpt r1 with
      | none => none
      | some (frac, r2) =>
        match parseExpOpt r2 with
        | none => none
        | some (ex, r3) => some (neg ++ intPart ++ frac ++ ex, r3)
    else none

mutual

/-- Parse one JSON value (fuelled recursion; the fuel is sized by the caller
so that it never runs out on inputs the parser accepts). -/
def parseVal (fuel : Nat) (s : List Char) : Option (PyJson × List Char) :=
  match fuel with
  | 0 => none
  | fuel' + 1 =>
    match skipWs s with
    | 'n' :: 'u' :: 'l' :: 'l' :: rest => some (PyJson.null, rest)
    | 't' :: 'r' :: 'u' :: 'e' :: rest => some (PyJson.bool true, rest)
    | 'f' :: 'a' :: 'l' :: 's' :: 'e' :: rest => some (PyJson.bool false, rest)
    | 'N' :: 'a' :: 'N' :: rest => some (PyJson.num "NaN", rest)
    | 'I' :: 'n' :: 'f' :: 'i' :: 'n' :: 'i' :: 't' :: 'y' :: rest =>
      some (PyJson.num "Infinity", rest)
    | '-' :: 'I' :: 'n' :: 'f' :: 'i' :: 'n' :: 'i' :: 't' :: 'y' :: rest =>
      some (PyJson.num "-Infinity", rest)
    | '\"' :: rest =>
      match parseStringBody [] rest with
      | some (cs, r) => some (PyJson.str (String.mk cs), r)
      | none => none
    | '[' :: rest =>
      match skipWs rest with
      | ']' :: r => some (PyJson.arr [], r)
      | _ =>
        match parseArrElems fuel' rest with
        | some (vs, r) => some (PyJson.arr vs, r)
        | none => none
    | '\x7b' :: rest =>
      match skipWs rest with
      | '\x7d' :: r => some (PyJson.obj [], r)
      | _ =>
        match parseObjFields fuel' rest with
        | some (kvs, r) => some (PyJson.obj kvs, r)
        | none => none
    | rest =>
      match parseNumber rest with
      | some (lex, r) => some (PyJson.num (String.mk lex), r)
      | none => none

/-- Parse the non-empty element list of a JSON array, up to and including the
closing bracket. -/
def parseArrElems (fuel : Nat) (s : List Char) : Option (List PyJson × List Char) :=
  match fuel with
  | 0 => none
  | fuel' + 1 =>
    match parseVal fuel' s with
    | none => none
    | some (v, r) =>
      match skipWs r with
      | ',' :: r2 =>
        match parseArrElems fuel' r2 with
        | some (vs, r3) => some (v :: vs, r3)
        | none => none
      | ']' :: r2 => some ([v], r2)
      | _ => none

/-- Parse the non-empty field list of a JSON object, up to and including the
closing brace. -/
def parseObjFields (fuel : Nat) (s : List Char) :
    Option (List (String × PyJson) × List Char) :=
  match fuel with
  | 0 => none
  | fuel' + 1 =>
    match skipWs s with
    | '\"' :: rest =>
      match parseStringBody [] rest with
      | none => none
      | some (key, r) =>
        match skipWs r with
        | ':' :: r2 =>
          match parseVal fuel' r2 with
          | none => none
          | some (v, r3) =>
            match skipWs r3 with
            | ',' :: r4 =>
              match parseObjFields fuel' r4 with
              | some (kvs, r5) => some ((String.mk key, v) :: kvs, r5)
              | none => none
            | '\x7d' :: r4 => some ([(String.mk key, v)], r4)
            | _ => none
        | _ => none
    | _ => none

end

/-- Model of Python's `json.loads` on a character sequence: parse one JSON
value and require only whitespace to remain.  `none` models a raised
`json.JSONDecodeError`. -/
def pyParse (s : List Char) : Option PyJson :=
  match parseVal (2 * s.length + 2) s with
  | some (v, rest) => if skipWs rest = [] then some v else none
  | none => none

/-- Index of the first occurrence of `c`, as Python's `str.find` (with `none`
for Python's `-1`). -/
def find_idx (c : Char) : List Char → Option Nat
  | [] => none
  | x :: xs =>
    if x = c then some 0
    else (find_idx c xs).map (fun n => n + 1)

/-- Index of the last occurrence of `c`, as Python's `str.rfind` (with `none`
for Python's `-1`). -/
def rfind_idx (c : Char) (l : List Char) : Option Nat :=
  match find_idx c l.reverse with
  | some i => some (l.length - 1 - i)
  | none => none

/-- The fallback extraction in `generate_profit_module`:
`start = raw.find("\x7b"); end = raw.rfind("\x7d")`, returning
`raw[start:end+1]` when `start != -1 and end != -1 and end > start`. -/
def extract_json_block (raw : List Char) : Option (List Char) :=
  match find_idx '\x7b' raw, rfind_idx '\x7d' raw with
  | some s, some e =>
    if s < e then some ((raw.drop s).take (e - s + 1)) else none
  | _, _ => none

/-- The robust-parse block of `generate_profit_module` (lines 315-325):
`json.loads(raw)` inside `try`; on exception, extract the first-`\x7b`-to-
last-`\x7d` block and `json.loads` it (this second call is outside any `try`,
so its failure is an uncaught `json.decoder.JSONDecodeError`).
`Except.ok none` means `parsed` stayed `None` (no block found). -/
def try_parse_profit (raw : List Char) : Except String (Option PyJson) :=
  match pyParse raw with
  | some v => Except.ok (some v)
  | none =>
    match extract_json_block raw with
    | some blk =>
      match pyParse blk with
      | some v => Except.ok (some v)
      | none => Except.error "json.decoder.JSONDecodeError"
    | none => Except.ok none

/-- `isinstance(parsed, dict) and "updated_state" in parsed`. -/
def has_updated_state : PyJson → Bool
  | PyJson.obj kvs => kvs.any fun kv => kv.1 == "updated_state"
  | _ => false

/-- Lines 315-327 of `generate_profit_module`: parse the raw model response
with the fallback, then `die` unless the result is a dict containing
`"updated_state"`. -/
def profit_parse_check (raw : List Char) : Except String PyJson :=
  match try_parse_profit raw with
  | Except.error e => Except.error e
  | Except.ok none =>
    Except.error "[FATAL] Profit module did not return valid JSON. Please re-run or inspect model output in logs."
  | Except.ok (some v) =>
    if has_updated_state v then Except.ok v
    else
      Except.error "[FATAL] Profit module did not return valid JSON. Please re-run or inspect model output in logs."

/-- The profit stage's interaction with the generation capability.
`responses` is the stream of texts the generator would return to successive
requests; the result pairs the stage's outcome with the number of generation
requests the stage issued.  `generate_profit_module` calls `deepseek_chat`
exactly once (the empty stream models `deepseek_chat` dying after its
internal transport retries) and never issues a follow-up request: on a parse
failure it only retries locally on the extracted block. -/
def run_profit_text_stage (responses : List (List Char)) :
    Except String PyJson × Nat :=
  match responses with
  | [] => (Except.error "[FATAL] DeepSeek request failed after retries", 1)
  | raw :: _ => (profit_parse_check raw, 1)

/-- `init_profit_state()` as the JSON value it denotes. -/
def init_profit_state : PyJson :=
  PyJson.obj
    [("version", PyJson.num "1"),
     ("review_interval_days", PyJson.num "7"),
     ("last_review_date", PyJson.null),
     ("opportunities", PyJson.arr [])]

/-- `read_json(p, default)`: missing file (`none`) or unparseable content
falls back to `default`. -/
def read_json (contents : Option (List Char)) (default : PyJson) : PyJson :=
  match contents with
  | none => default
  | some s => (pyParse s).getD default

/-- One `history` entry of an opportunity record. -/
structure HistEntry where
  date : Int
  event : String
  note : String
deriving DecidableEq

/-- One opportunity record of the profit pool.  Fields the script reads with
`.get`/`setdefault` and that may be absent in a proposal are `Option`-typed
(`none` models an absent key); dates are integer day numbers. -/
structure Opp where
  id : String
  title : String
  status : String
  next_actions : Option (List String)
  risk : String
  notes : Option String
  progress_today : String
  last_update : Option Int
  history : Option (List HistEntry)
deriving DecidableEq

/-- The persisted profit pool (`memory/profit/opportunities.json`) after
`normalize_profit_state` has ensured the four top-level keys. -/
structure ProfitState where
  version : Nat
  review_interval_days : Int
  last_review_date : Option Int
  opportunities : List Opp
deriving DecidableEq

/-- The `updated_state` object of a parsed model proposal: `none` components
model an absent key (for `last_review_date` also a JSON `null`, which
`updated_state.get(...) is not None` treats identically). -/
structure UpdatedState where
  last_review_date : Option Int
  opportunities : Option (List Opp)
deriving DecidableEq

/-- `is_review_day(state, today)`: `True` when `last_review_date` is unset,
otherwise whether at least `review_interval_days` days have elapsed.  (The
`try/except` around ISO-date parsing cannot fire in the integer-day model.) -/
def is_review_day (state : ProfitState) (today : Int) : Bool :=
  match state.last_review_date with
  | none => true
  | some last => decide (state.review_interval_days ≤ today - last)

/-- `active_opps(state)`: the opportunities whose status is `"active"`, in
pool order. -/
def active_opps (state : ProfitState) : List Opp :=
  state.opportunities.filter fun o => decide (o.status = "active")

/-- Number of `"active"` records in a list of opportunities. -/
def countActive (l : List Opp) : Nat :=
  (l.filter fun o => decide (o.status = "active")).length

/-- The in-place mutation `clamp_active_to_two` applies to one downgraded
record: set `status` to `"backlog"` and append the automatic history entry
`{date: today, event: "auto-downgrade-to-backlog", note: "active > 2 clamp"}`
(via `setdefault("history", [])`). -/
def downgrade (today : Int) (o : Opp) : Opp :=
  { o with
    status := "backlog",
    history := some ((o.history.getD []) ++
      [{ date := today, event := "auto-downgrade-to-backlog", note := "active > 2 clamp" }]) }

/-- Functional rendering of the loop `for o in act[2:]`: walk the pool in
order counting `"active"` records seen; actives beyond the first two are
downgraded. -/
def clampGo (today : Int) : Nat → List Opp → List Opp
  | _, [] => []
  | seen, o :: rest =>
    if o.status = "active" then
      (if seen < 2 then o else downgrade today o) :: clampGo today (seen + 1) rest
    else o :: clampGo today seen rest

/-- `clamp_active_to_two(state)`: if more than two records are `"active"`,
keep the first two (in pool order) and downgrade the rest to `"backlog"`. -/
def clamp_active_to_two (today : Int) (state : ProfitState) : ProfitState :=
  if (active_opps state).length ≤ 2 then state
  else { state with opportunities := clampGo today 0 state.opportunities }

/-- `allow_new = review_day or (len(active_opps(state)) == 0)` (line 263). -/
def allow_new (state : ProfitState) (today : Int) : Bool :=
  is_review_day state today || decide ((active_opps state).length = 0)

/-- The per-record normalization loop of `generate_profit_module`
(lines 336-340): `setdefault` of `history`, `next_actions`, `notes` and
`last_update` (the latter defaulting to today's date). -/
def normalize_opp (today : Int) (o : Opp) : Opp :=
  { o with
    history := some (o.history.getD []),
    next_actions := some (o.next_actions.getD []),
    notes := some (o.notes.getD ""),
    last_update := some (o.last_update.getD today) }

/-- Lines 329-340: `state["opportunities"] = updated_state.get
("opportunities", state["opportunities"])`, the conditional overwrite of
`last_review_date`, and the normalization loop.  The proposal's list, when
present, replaces the pool's list wholesale. -/
def apply_updated_state (today : Int) (state : ProfitState) (us : UpdatedState) :
    ProfitState :=
  { state with
    opportunities := (us.opportunities.getD state.opportunities).map (normalize_opp today),
    last_review_date :=
      match us.last_review_date with
      | some d => some d
      | none => state.last_review_date }

/-- The pool reached just before the final clamp of `generate_profit_module`:
the previous pool is normalized and pre-clamped (lines 258-259), then the
parsed proposal is applied. -/
def merged_pre (today : Int) (st : ProfitState) (us : UpdatedState) : ProfitState :=
  apply_updated_state today (clamp_active_to_two today st) us

/-- The state returned by `generate_profit_module` for a previous pool `st`
and a parsed proposal `us`: applying the proposal followed by the final
`clamp_active_to_two(state)` (line 342). -/
def generate_profit_module_state (today : Int) (st : ProfitState) (us : UpdatedState) :
    ProfitState :=
  clamp_active_to_two today (merged_pre today st us)

/-- The persisted artifacts `main` can write during one cycle, in program
order: the opportunity pool JSON, `memory/profit/<today>.md`,
`memory/digitaltwin/<today>.md`, and `memory/healing/<today>.md`. -/
inductive WriteKey where
  | poolState
  | profitLog
  | twinLog
  | healingLog
deriving DecidableEq

/-- Outcomes of the external generation calls `main` makes, in order:
the profit response text (`none` models `deepseek_chat` dying), and whether
the healing, digital-twin and public-post generations succeed. -/
structure GenOracle where
  profitResp : Option (List Char)
  healingOk : Bool
  twinOk : Bool
  postOk : Bool

/-- The persistence skeleton of `main` (lines 529-563): the profit stage runs
first; `write_json(pool)` and the profit log happen immediately after it
succeeds; the digital-twin and healing logs are written only after the
healing and twin generations also succeed; the public post comes last and
writes nothing.  The second component lists the writes performed before the
run ended. -/
def main_run (o : GenOracle) : Except String Unit × List WriteKey :=
  match o.profitResp with
  | none => (Except.error "[FATAL] DeepSeek request failed after retries", [])
  | some raw =>
    match profit_parse_check raw with
    | Except.error e => (Except.error e, [])
    | Except.ok _ =>
      if o.healingOk then
        if o.twinOk then
          if o.postOk then
            (Except.ok (),
             [WriteKey.poolState, WriteKey.profitLog, WriteKey.twinLog, WriteKey.healingLog])
          else
            (Except.error "[FATAL] Moltbook post failed",
             [WriteKey.poolState, WriteKey.profitLog, WriteKey.twinLog, WriteKey.healingLog])
        else
          (Except.error "[FATAL] DeepSeek request failed after retries: digitaltwin",
           [WriteKey.poolState, WriteKey.profitLog])
      else
        (Except.error "[FATAL] DeepSeek request failed after retries: healing",
         [WriteKey.poolState, WriteKey.profitLog])

/-! Concrete inputs used by witnesses and counterexamples. -/

/-- A well-formed profit response: an object carrying `updated_state`. -/
def exGoodRaw : List Char :=
  "\x7b\"updated_state\": \x7b\"opportunities\": []\x7d\x7d".data

/-- A response with no object literal at all. -/
def exBadRaw : List Char :=
  "I cannot produce structured output today.".data

/-- `exGoodRaw` with a trailing comma before its final brace: valid JSON
except for that one comma. -/
def exTrailingComma : List Char :=
  "\x7b\"updated_state\": \x7b\"opportunities\": []\x7d,\x7d".data

/-- Unparseable pool-file content (not merely a missing file). -/
def exCorrupt : List Char :=
  "\x7b not valid json".data

/-- A balanced object literal used in the extraction examples. -/
def exC7Obj : List Char :=
  "\x7b\"a\":\"1\"\x7d".data

/-- Prose prefix with no braces. -/
def exC7Pfx : List Char :=
  "Sure! Here is the result: ".data

/-- Prose suffix containing a matched (not unmatched) brace pair. -/
def exC7Sfx : List Char :=
  " Hope this helps! \x7b\x7d".data

/-- An opportunity record with a given id and status and defaulted fields. -/
def mkOpp (i : String) (st : String) : Opp :=
  { id := i, title := i, status := st, next_actions := some [], risk := "",
    notes := some "", progress_today := "", last_update := some 0,
    history := some [] }

/-- Previous pool for the no-deletion counterexample: one known id. -/
def exPool2 : ProfitState :=
  { version := 1, review_interval_days := 7, last_review_date := some 0,
    opportunities := [mkOpp "keep1" "backlog"] }

/-- Proposal whose `updated_state.opportunities` is the empty list. -/
def exProposal2 : UpdatedState :=
  { last_review_date := none, opportunities := some [] }

/-- Previous pool for the review-gating counterexample: last review on day 0,
interval 7, one active opportunity. -/
def exPool3 : ProfitState :=
  { version := 1, review_interval_days := 7, last_review_date := some 0,
    opportunities := [mkOpp "a" "active"] }

/-- Proposal introducing the new id `"newopp"` alongside the existing id. -/
def exProposal3 : UpdatedState :=
  { last_review_date := none,
    opportunities := some [mkOpp "a" "active", mkOpp "newopp" "backlog"] }

/-- The new record proposed in `exProposal3`. -/
def exOppNew : Opp := mkOpp "newopp" "backlog"

/-- Empty previous pool for the clamp-invariant witness. -/
def exSt1 : ProfitState :=
  { version := 1, review_interval_days := 7, last_review_date := none,
    opportunities := [] }

/-- Proposal carrying three active opportunities. -/
def exUs1 : UpdatedState :=
  { last_review_date := some 3,
    opportunities := some [mkOpp "a" "active", mkOpp "b" "active", mkOpp "c" "active"] }

/-- Pool with three actives and one backlog record, for the frame witness. -/
def exPoolW : ProfitState :=
  { version := 1, review_interval_days := 7, last_review_date := none,
    opportunities := [mkOpp "a" "active", mkOpp "b" "active",
      mkOpp "c" "active", mkOpp "d" "backlog"] }

/-- Oracle for the persistence counterexample: the profit stage succeeds and
the healing generation fails. -/
def exOracleHalf : GenOracle :=
  { profitResp := some exGoodRaw, healingOk := false, twinOk := true, postOk := true }

/-! ## Helper lemmas about the clamp -/

theorem downgrade_status (today : Int) (o : Opp) :
    (downgrade today o).status = "backlog" := rfl

theorem countActive_nil : countActive [] = 0 := rfl

theorem countActive_cons (o : Opp) (l : List Opp) :
    countActive (o :: l) =
      (if o.status = "active" then 1 else 0) + countActive l := by
  by_cases h : o.status = "active"
  · simp [countActive, List.filter_cons, h]
    omega
  · simp [countActive, List.filter_cons, h]

theorem clampGo_length (today : Int) (seen : Nat) (l : List Opp) :
    (clampGo today seen l).length = l.length := by
  induction l generalizing seen with
  | nil => rfl
  | cons o rest ih =>
    by_cases h : o.status = "active" <;> simp [clampGo, h, ih]

theorem clampGo_map_id (today : Int) (seen : Nat) (l : List Opp) :
    (clampGo today seen l).map Opp.id = l.map Opp.id := by
  induction l generalizing seen with
  | nil => rfl
  | cons o rest ih =>
    by_cases h : o.status = "active"
    · by_cases h2 : seen < 2 <;> simp [clampGo, h, h2, ih, downgrade]
    · simp [clampGo, h, ih]

theorem countActive_clampGo (today : Int) (seen : Nat) (l : List Opp) :
    countActive (clampGo today seen l) = min (countActive l) (2 - seen) := by
  induction l generalizing seen with
  | nil => simp [clampGo, countActive_nil]
  | cons o rest ih =>
    by_cases h : o.status = "active"
    · by_cases h2 : seen < 2
      · rw [show clampGo today seen (o :: rest) = o :: clampGo today (seen + 1) rest
            from by simp [clampGo, h, h2]]
        rw [countActive_cons, countActive_cons, ih, if_pos h]
        omega
      · rw [show clampGo today seen (o :: rest) =
              downgrade today o :: clampGo today (seen + 1) rest
            from by simp [clampGo, h, h2]]
        rw [countActive_cons, countActive_cons, ih, if_pos h,
          downgrade_status, if_neg (by decide : ¬ ("backlog" : String) = "active")]
        omega
    · rw [show clampGo today seen (o :: rest) = o :: clampGo today seen rest
          from by simp [clampGo, h]]
      rw [countActive_cons, countActive_cons, ih, if_neg h]
      omega

theorem clampGo_getq (today : Int) (l : List Opp) :
    ∀ (seen i : Nat),
      (clampGo today seen l).get? i =
        (l.get? i).map (fun o =>
          if o.status = "active" ∧ 2 ≤ seen + countActive (l.take i)
          then downgrade today o else o) := by
  induction l with
  | nil => intro seen i; simp [clampGo]
  | cons o rest ih =>
    intro seen i
    by_cases ha : o.status = "active"
    · match i with
      | 0 =>
        by_cases hs : seen < 2
        · rw [show clampGo today seen (o :: rest) = o :: clampGo today (seen + 1) rest
              from by simp [clampGo, ha, hs]]
          simp only [List.get?_cons_zero, Option.map_some', List.take_zero,
            countActive_nil, Nat.add_zero]
          rw [if_neg (by omega : ¬ (o.status = "active" ∧ 2 ≤ seen))]
        · rw [show clampGo today seen (o :: rest) =
                downgrade today o :: clampGo today (seen + 1) rest
              from by simp [clampGo, ha, hs]]
          simp only [List.get?_cons_zero, Option.map_some', List.take_zero,
            countActive_nil, Nat.add_zero]
          rw [if_pos ⟨ha, by omega⟩]
      | Nat.succ j =>
        rw [show clampGo today seen (o :: rest) =
              (if seen < 2 then o else downgrade today o) :: clampGo today (seen + 1) rest
            from by simp [clampGo, ha]]
        simp only [List.get?_cons_succ]
        rw [ih (seen + 1) j]
        have hfun : (fun o' : Opp =>
            if o'.status = "active" ∧ 2 ≤ seen + 1 + countActive (rest.take j)
            then downgrade today o' else o') =
            (fun o' : Opp =>
            if o'.status = "active" ∧ 2 ≤ seen + countActive ((o :: rest).take (j + 1))
            then downgrade today o' else o') := by
          funext o'
          have hcnt : seen + 1 + countActive (rest.take j) =
              seen + countActive ((o :: rest).take (j + 1)) := by
            rw [List.take_succ_cons, countActive_cons, if_pos ha]
            omega
          rw [hcnt]
        rw [hfun]
    · match i with
      | 0 =>
        rw [show clampGo today seen (o :: rest) = o :: clampGo today seen rest
            from by simp [clampGo, ha]]
        simp only [List.get?_cons_zero, Option.map_some', List.take_zero,
          countActive_nil, Nat.add_zero]
        rw [if_neg (fun hx => ha hx.1)]
      | Nat.succ j =>
        rw [show clampGo today seen (o :: rest) = o :: clampGo today seen rest
            from by simp [clampGo, ha]]
        simp only [List.get?_cons_succ]
        rw [ih seen j]
        have hfun : (fun o' : Opp =>
            if o'.status = "active" ∧ 2 ≤ seen + countActive (rest.take j)
            then downgrade today o' else o') =
            (fun o' : Opp =>
            if o'.status = "active" ∧ 2 ≤ seen + countActive ((o :: rest).take (j + 1))
            then downgrade today o' else o') := by
          funext o'
          have hcnt : seen + countActive (rest.take j) =
              seen + countActive ((o :: rest).take (j + 1)) := by
            rw [List.take_succ_cons, countActive_cons, if_neg ha]
            omega
          rw [hcnt]
        rw [hfun]

theorem active_opps_length (s : ProfitState) :
    (active_opps s).length = countActive s.opportunities := rfl

theorem clamp_of_le (today : Int) (s : ProfitState)
    (h : (active_opps s).length ≤ 2) : clamp_active_to_two today s = s := by
  rw [clamp_active_to_two, if_pos h]

theorem clamp_of_gt (today : Int) (s : ProfitState)
    (h : 2 < (active_opps s).length) :
    clamp_active_to_two today s =
      { s with opportunities := clampGo today 0 s.opportunities } := by
  rw [clamp_active_to_two, if_neg (by omega)]

theorem clamp_map_id (today : Int) (s : ProfitState) :
    (clamp_active_to_two today s).opportunities.map Opp.id =
      s.opportunities.map Opp.id := by
  by_cases h : (active_opps s).length ≤ 2
  · rw [clamp_of_le today s h]
  · rw [clamp_of_gt today s (by omega)]
    exact clampGo_map_id today 0 s.opportunities

theorem countActive_clamp (today : Int) (s : ProfitState) :
    countActive (clamp_active_to_two today s).opportunities =
      min (countActive s.opportunities) 2 := by
  by_cases h : (active_opps s).length ≤ 2
  · rw [clamp_of_le today s h]
    rw [active_opps_length] at h
    omega
  · rw [clamp_of_gt today s (by omega)]
    show countActive (clampGo today 0 s.opportunities) = _
    rw [countActive_clampGo]

/-- The id sequence of the merged pool is the proposal's (when it supplies an
`opportunities` list) and the previous pool's otherwise: shared backbone of
the no-deletion and gating results. -/
theorem gen_state_ids (today : Int) (st : ProfitState) (us : UpdatedState) :
    (generate_profit_module_state today st us).opportunities.map Opp.id =
      match us.opportunities with
      | some opps => opps.map Opp.id
      | none => st.opportunities.map Opp.id := by
  have hmap : ∀ l : List Opp,
      (l.map (normalize_opp today)).map Opp.id = l.map Opp.id := by
    intro l
    rw [List.map_map]
    rfl
  show (clamp_active_to_two today (merged_pre today st us)).opportunities.map Opp.id = _
  rw [clamp_map_id]
  cases hus : us.opportunities with
  | none =>
    show ((us.opportunities.getD
        (clamp_active_to_two today st).opportunities).map (normalize_opp today)).map Opp.id =
      st.opportunities.map Opp.id
    rw [hus]
    show ((clamp_active_to_two today st).opportunities.map (normalize_opp today)).map Opp.id = _
    rw [hmap, clamp_map_id]
  | some opps =>
    show ((us.opportunities.getD
        (clamp_active_to_two today st).opportunities).map (normalize_opp today)).map Opp.id =
      opps.map Opp.id
    rw [hus]
    show (opps.map (normalize_opp today)).map Opp.id = _
    rw [hmap]

/-! ## Claim theorems: opportunity pool state machine -/

/-- C1: for every merge whose pool after applying the proposal has more than
2 `"active"` opportunities, the post-merge pool has exactly 2 actives; every
other formerly-active record is `"backlog"` with a newly appended history
entry `auto-downgrade-to-backlog` dated with the current cycle date, and the
clamp is the final step of every merge regardless of the proposal. -/
theorem clamp_invariant_C1 (today : Int) (st : ProfitState) (us : UpdatedState)
    (hgt : 2 < (active_opps (merged_pre today st us)).length) :
    generate_profit_module_state today st us =
      clamp_active_to_two today (merged_pre today st us) ∧
    (active_opps (generate_profit_module_state today st us)).length = 2 ∧
    (generate_profit_module_state today st us).opportunities.length =
      (merged_pre today st us).opportunities.length ∧
    (∀ (i : Nat) (o : Opp),
      (merged_pre today st us).opportunities.get? i = some o →
      o.status = "active" →
      ((countActive ((merged_pre today st us).opportunities.take i) < 2 →
        (generate_profit_module_state today st us).opportunities.get? i = some o) ∧
       (2 ≤ countActive ((merged_pre today st us).opportunities.take i) →
        (generate_profit_module_state today st us).opportunities.get? i =
          some { o with
            status := "backlog",
            history := some ((o.history.getD []) ++
              [{ date := today, event := "auto-downgrade-to-backlog",
                 note := "active > 2 clamp" }]) }))) := by
  have hpost : generate_profit_module_state today st us =
      { merged_pre today st us with
        opportunities := clampGo today 0 (merged_pre today st us).opportunities } :=
    clamp_of_gt today _ hgt
  refine ⟨rfl, ?_, ?_, ?_⟩
  · rw [active_opps_length, hpost]
    show countActive (clampGo today 0 (merged_pre today st us).opportunities) = 2
    rw [countActive_clampGo]
    rw [active_opps_length] at hgt
    omega
  · rw [hpost]
    show (clampGo today 0 (merged_pre today st us).opportunities).length = _
    rw [clampGo_length]
  · intro i o hget hact
    constructor
    · intro hlt
      rw [hpost]
      show (clampGo today 0 (merged_pre today st us).opportunities).get? i = some o
      rw [clampGo_getq, hget]
      show some (if o.status = "active" ∧
          2 ≤ 0 + countActive ((merged_pre today st us).opportunities.take i)
        then downgrade today o else o) = some o
      rw [if_neg (fun hx => absurd hx.2 (by omega))]
    · intro hge
      rw [hpost]
      show (clampGo today 0 (merged_pre today st us).opportunities).get? i = _
      rw [clampGo_getq, hget]
      show some (if o.status = "active" ∧
          2 ≤ 0 + countActive ((merged_pre today st us).opportunities.take i)
        then downgrade today o else o) = _
      rw [if_pos ⟨hact, by omega⟩]
      rfl

/-- Witness for C1 at a concrete merge: a proposal with three actives ends
with exactly two. -/
theorem clamp_invariant_C1_witness :
    (active_opps (generate_profit_module_state 3 exSt1 exUs1)).length = 2 :=
  (clamp_invariant_C1 3 exSt1 exUs1 (by decide)).2.1

/-- C10: the clamp preserves the id sequence, the order and the length of
the pool; a record that is not `"active"`, or is one of the first two
actives (fewer than 2 actives before it), is unchanged; and any record is
either unchanged or modified exactly by setting `status := "backlog"` and
appending the automatic history entry — no other field is touched. -/
theorem clamp_frame_C10 (today : Int) (s : ProfitState) :
    (clamp_active_to_two today s).opportunities.map Opp.id =
      s.opportunities.map Opp.id ∧
    (clamp_active_to_two today s).opportunities.length = s.opportunities.length ∧
    ∀ (i : Nat) (o : Opp), s.opportunities.get? i = some o →
      ((o.status ≠ "active" →
        (clamp_active_to_two today s).opportunities.get? i = some o) ∧
       (countActive (s.opportunities.take i) < 2 →
        (clamp_active_to_two today s).opportunities.get? i = some o) ∧
       ((clamp_active_to_two today s).opportunities.get? i = some o ∨
        (clamp_active_to_two today s).opportunities.get? i =
          some { o with
            status := "backlog",
            history := some ((o.history.getD []) ++
              [{ date := today, event := "auto-downgrade-to-backlog",
                 note := "active > 2 clamp" }]) })) := by
  by_cases hle : (active_opps s).length ≤ 2
  · rw [clamp_of_le today s hle]
    exact ⟨rfl, rfl, fun i o hget =>
      ⟨fun _ => hget, fun _ => hget, Or.inl hget⟩⟩
  · have hgt : 2 < (active_opps s).length := by omega
    have hcl : clamp_active_to_two today s =
        { s with opportunities := clampGo today 0 s.opportunities } :=
      clamp_of_gt today s hgt
    refine ⟨clamp_map_id today s, ?_, ?_⟩
    · rw [hcl]
      show (clampGo today 0 s.opportunities).length = _
      rw [clampGo_length]
    · intro i o hget
      have hq : (clamp_active_to_two today s).opportunities.get? i =
          some (if o.status = "active" ∧ 2 ≤ 0 + countActive (s.opportunities.take i)
            then downgrade today o else o) := by
        rw [hcl]
        show (clampGo today 0 s.opportunities).get? i = _
        rw [clampGo_getq, hget]
        rfl
      refine ⟨?_, ?_, ?_⟩
      · intro hna
        rw [hq, if_neg (fun hx => hna hx.1)]
      · intro hlt
        rw [hq, if_neg (fun hx => absurd hx.2 (by omega))]
      · by_cases hc : o.status = "active" ∧ 2 ≤ 0 + countActive (s.opportunities.take i)
        · refine Or.inr ?_
          rw [hq, if_pos hc]
          rfl
        · refine Or.inl ?_
          rw [hq, if_neg hc]

/-- Witness for C10: the fourth (non-active) record of a pool with three
actives is untouched by the clamp. -/
theorem clamp_frame_C10_witness :
    (clamp_active_to_two 5 exPoolW).opportunities.get? 3 =
      some (mkOpp "d" "backlog") :=
  (((clamp_frame_C10 5 exPoolW).2.2 3 (mkOpp "d" "backlog") (by rfl)).1) (by decide)

/-- C2 counterexample: a previous pool knowing id `"keep1"` merged with an
accepted proposal whose `opportunities` list is empty loses `"keep1"` — the
merged id set is not a superset of the previous one. -/
theorem no_deletion_C2_counterexample :
    "keep1" ∈ exPool2.opportunities.map Opp.id ∧
    "keep1" ∉ (generate_profit_module_state 10 exPool2 exProposal2).opportunities.map Opp.id := by
  decide

/-- C2 (amended): the merge replaces the pool's record list with the
proposal's list whenever the proposal supplies one — the merged pool's ids
are exactly the proposal's ids, and previously-known ids the proposal does
not mention are dropped; only when the proposal omits the `opportunities`
key entirely is the previous pool carried over. -/
theorem no_deletion_C2_amended (today : Int) (st : ProfitState) (us : UpdatedState) :
    (generate_profit_module_state today st us).opportunities.map Opp.id =
      match us.opportunities with
      | some opps => opps.map Opp.id
      | none => st.opportunities.map Opp.id :=
  gen_state_ids today st us

/-- C3 counterexample: with `last_review_date` = day 0 and
`review_interval_days` = 7, on day 3 the gate is off, yet a proposal
introducing the new id `"newopp"` still places it in the merged pool (and on
day 8 the gate is on, with the same outcome). -/
theorem review_gating_C3_counterexample :
    allow_new exPool3 3 = false ∧
    "newopp" ∉ exPool3.opportunities.map Opp.id ∧
    "newopp" ∈ (generate_profit_module_state 3 exPool3 exProposal3).opportunities.map Opp.id ∧
    allow_new exPool3 8 = true ∧
    "newopp" ∈ (generate_profit_module_state 8 exPool3 exProposal3).opportunities.map Opp.id := by
  decide

/-- C3 (amended): the review gate only changes the prompt text sent to the
generator; the merge itself never rejects ids — every id present in an
accepted proposal's list is present in the merged pool, on review days and
non-review days alike. -/
theorem review_gating_C3_amended (today : Int) (st : ProfitState) (us : UpdatedState)
    (opps : List Opp) (hus : us.opportunities = some opps)
    (o : Opp) (ho : o ∈ opps) :
    o.id ∈ (generate_profit_module_state today st us).opportunities.map Opp.id := by
  rw [gen_state_ids, hus]
  exact List.mem_map_of_mem Opp.id ho

/-- Witness for C3 (amended): the day-3 merge with the gate off still
contains the proposed new id. -/
theorem review_gating_C3_witness :
    allow_new exPool3 3 = false ∧
    "newopp" ∈ (generate_profit_module_state 3 exPool3 exProposal3).opportunities.map Opp.id :=
  ⟨by decide, review_gating_C3_amended 3 exPool3 exProposal3 _ rfl exOppNew (by decide)⟩

/-- C4: the review gate (`allow_new`) is true exactly when
`last_review_date` is unset, or at least `review_interval_days` days have
elapsed since it, or the pool currently has no `"active"` opportunity. -/
theorem review_gate_C4 (state : ProfitState) (today : Int) :
    allow_new state today = true ↔
      (state.last_review_date = none ∨
       (∃ last, state.last_review_date = some last ∧
         state.review_interval_days ≤ today - last) ∨
       (active_opps state).length = 0) := by
  unfold allow_new is_review_day
  cases h : state.last_review_date with
  | none => simp
  | some last => simp

/-! ## Helper lemmas about the first/last-brace extraction -/

theorem find_idx_eq_none (c : Char) (l : List Char) (h : c ∉ l) :
    find_idx c l = none := by
  induction l with
  | nil => rfl
  | cons x xs ih =>
    have hx : ¬ x = c := fun he => h (he ▸ List.mem_cons_self x xs)
    have hxs : c ∉ xs := fun hm => h (List.mem_cons_of_mem x hm)
    rw [show find_idx c (x :: xs) =
        (if x = c then some 0 else (find_idx c xs).map (fun n => n + 1))
      from rfl]
    rw [if_neg hx, ih hxs]
    rfl

theorem find_idx_append_of_not_mem (c : Char) (p q : List Char) (hp : c ∉ p) :
    find_idx c (p ++ q) = (find_idx c q).map (fun n => n + p.length) := by
  induction p with
  | nil =>
    cases hfq : find_idx c q <;> simp [hfq]
  | cons x xs ih =>
    have hx : ¬ x = c := fun he => hp (he ▸ List.mem_cons_self x xs)
    have hxs : c ∉ xs := fun hm => hp (List.mem_cons_of_mem x hm)
    show find_idx c (x :: (xs ++ q)) = _
    rw [show find_idx c (x :: (xs ++ q)) =
        (if x = c then some 0 else (find_idx c (xs ++ q)).map (fun n => n + 1))
      from rfl]
    rw [if_neg hx, ih hxs]
    cases hfq : find_idx c q with
    | none => rfl
    | some n => rfl

theorem find_idx_cons_self (c : Char) (t : List Char) :
    find_idx c (c :: t) = some 0 := by
  rw [show find_idx c (c :: t) =
      (if c = c then some 0 else (find_idx c t).map (fun n => n + 1))
    from rfl]
  rw [if_pos rfl]

theorem exists_concat_of_getLast (l : List Char) (a : Char)
    (h : l.getLast? = some a) : ∃ t, l = t ++ [a] := by
  induction l with
  | nil => exact absurd h (by simp)
  | cons x xs ih =>
    cases xs with
    | nil =>
      simp only [List.getLast?_singleton, Option.some.injEq] at h
      exact ⟨[], by simp [h]⟩
    | cons y ys =>
      rw [List.getLast?_cons_cons] at h
      obtain ⟨t, ht⟩ := ih h
      exact ⟨x :: t, by simp [ht]⟩

/-! ## Claim theorems: structured-output pipeline -/

/-- C7 counterexample: on `prefix ++ balancedObject ++ suffix` where the
suffix contains a matched brace pair, the extractor does not return the
balanced object — it returns the span from the first opening brace to the
very last closing brace of the text. -/
theorem extractor_C7_counterexample :
    extract_json_block (exC7Pfx ++ exC7Obj ++ exC7Sfx) ≠ some exC7Obj ∧
    extract_json_block (exC7Pfx ++ exC7Obj ++ exC7Sfx) =
      some (exC7Obj ++ exC7Sfx) := by
  refine ⟨by decide, by rfl⟩

/-- C7 (amended): the extractor returns the substring from the first opening
brace to the last closing brace of the text, with no nesting-depth or
quoted-string awareness; consequently it returns exactly the balanced object
only under the stronger premise that the prefix contains no opening brace
and the suffix no closing brace at all, and it signals not-found when the
text has no opening brace. -/
theorem extractor_C7_amended :
    (∀ (p obj s : List Char),
      '\x7b' ∉ p → '\x7d' ∉ s →
      obj.head? = some '\x7b' → obj.getLast? = some '\x7d' →
      extract_json_block (p ++ obj ++ s) = some obj) ∧
    (∀ raw : List Char, '\x7b' ∉ raw → extract_json_block raw = none) := by
  constructor
  · intro p obj s hp hs hhead hlast
    obtain ⟨t, hobj⟩ : ∃ t, obj = '\x7b' :: t := by
      cases obj with
      | nil => exact absurd hhead (by simp)
      | cons c0 t0 =>
        simp only [List.head?_cons, Option.some.injEq] at hhead
        exact ⟨t0, by rw [hhead]⟩
    obtain ⟨u, hu⟩ := exists_concat_of_getLast obj '\x7d' hlast
    have hlen2 : 2 ≤ obj.length := by
      cases t with
      | nil =>
        rw [hobj, List.getLast?_singleton] at hlast
        exact absurd hlast (by decide)
      | cons b t2 =>
        rw [hobj, List.length_cons, List.length_cons]
        omega
    have h1 : find_idx '\x7b' (p ++ obj ++ s) = some p.length := by
      rw [List.append_assoc, find_idx_append_of_not_mem _ _ _ hp]
      rw [show obj ++ s = '\x7b' :: (t ++ s) from by rw [hobj]; rfl]
      rw [find_idx_cons_self]
      show some (0 + p.length) = _
      rw [Nat.zero_add]
    have h2 : find_idx '\x7d' ((p ++ obj ++ s).reverse) = some s.length := by
      rw [List.reverse_append, List.reverse_append]
      rw [find_idx_append_of_not_mem '\x7d' s.reverse _
        (by rw [List.mem_reverse]; exact hs)]
      rw [show obj.reverse ++ p.reverse = '\x7d' :: (u.reverse ++ p.reverse)
        from by rw [hu, List.reverse_append]; rfl]
      rw [find_idx_cons_self]
      show some (0 + s.reverse.length) = _
      rw [Nat.zero_add, List.length_reverse]
    have hlentot : (p ++ obj ++ s).length = p.length + obj.length + s.length := by
      rw [List.length_append, List.length_append]
    have h3 : rfind_idx '\x7d' (p ++ obj ++ s) = some (p.length + obj.length - 1) := by
      unfold rfind_idx
      rw [h2]
      show some ((p ++ obj ++ s).length - 1 - s.length) =
        some (p.length + obj.length - 1)
      rw [hlentot]
      congr 1
      omega
    show extract_json_block (p ++ obj ++ s) = some obj
    unfold extract_json_block
    rw [h1, h3]
    show (if p.length < p.length + obj.length - 1
      then some (((p ++ obj ++ s).drop p.length).take
        (p.length + obj.length - 1 - p.length + 1))
      else none) = some obj
    rw [if_pos (by omega)]
    congr 1
    have hdrop : (p ++ obj ++ s).drop p.length = obj ++ s := by
      rw [List.append_assoc]
      exact List.drop_left p (obj ++ s)
    rw [hdrop, show p.length + obj.length - 1 - p.length + 1 = obj.length from by omega]
    exact List.take_left obj s
  · intro raw hraw
    unfold extract_json_block
    rw [find_idx_eq_none _ _ hraw]

/-- Witness for C7 (amended): a brace-free prefix and closing-brace-free
suffix around a balanced object, and a brace-free text. -/
theorem extractor_C7_witness :
    extract_json_block ("Sure! ".data ++ exC7Obj ++ " thanks".data) = some exC7Obj ∧
    extract_json_block exBadRaw = none :=
  ⟨extractor_C7_amended.1 ("Sure! ".data) exC7Obj (" thanks".data)
      (by decide) (by decide) (by rfl) (by rfl),
    extractor_C7_amended.2 exBadRaw (by decide)⟩

/-- C5 counterexample: a run whose first response contains no object literal
(an extraction failure) with a perfectly valid response available next:
the profit stage still issues exactly 1 generation request (0 follow-up
repair requests instead of the claimed 1), never consumes the second
response, and terminates fatally. -/
theorem repair_C5_counterexample :
    (run_profit_text_stage [exBadRaw, exGoodRaw]).2 = 1 ∧
    (run_profit_text_stage [exBadRaw, exGoodRaw]).1 =
      Except.error "[FATAL] Profit module did not return valid JSON. Please re-run or inspect model output in logs." ∧
    profit_parse_check exGoodRaw =
      Except.ok (PyJson.obj
        [("updated_state", PyJson.obj [("opportunities", PyJson.arr [])])]) :=
  ⟨rfl, rfl, rfl⟩

/-- C5 (amended): on a validation failure the system issues no follow-up
generation request at all — every run makes exactly one request, retries
only locally by re-parsing the first-to-last-brace block of the same
response, and succeeds exactly when the direct parse, or (only after a parse
exception) the block re-parse, yields an object carrying `updated_state`;
any other outcome is an immediate fatal error. -/
theorem repair_C5_amended (raw : List Char) (rest : List (List Char)) :
    (run_profit_text_stage (raw :: rest)).2 = 1 ∧
    ((∃ v, (run_profit_text_stage (raw :: rest)).1 = Except.ok v) ↔
      ((∃ j, pyParse raw = some j ∧ has_updated_state j = true) ∨
       (pyParse raw = none ∧ ∃ blk j, extract_json_block raw = some blk ∧
         pyParse blk = some j ∧ has_updated_state j = true))) := by
  refine ⟨rfl, ?_⟩
  show (∃ v, profit_parse_check raw = Except.ok v) ↔ _
  unfold profit_parse_check try_parse_profit
  cases hp : pyParse raw with
  | some j =>
    cases hus : has_updated_state j with
    | true => simp [hus]
    | false => simp [hus]
  | none =>
    cases he : extract_json_block raw with
    | some blk =>
      cases hb : pyParse blk with
      | some j =>
        cases hus : has_updated_state j with
        | true => simp [he, hb, hus]
        | false => simp [he, hb, hus]
      | none => simp [he, hb]
    | none => simp [he]

/-- C8 counterexample: a model output that is valid JSON except for one
trailing comma before its final closing brace (the comma-free version parses
to an `updated_state` object) does not parse and validate — the run aborts
with an uncaught decode error from the fallback re-parse. -/
theorem normalizer_C8_counterexample :
    exTrailingComma = exGoodRaw.dropLast ++ [',', '\x7d'] ∧
    pyParse exGoodRaw =
      some (PyJson.obj
        [("updated_state", PyJson.obj [("opportunities", PyJson.arr [])])]) ∧
    profit_parse_check exTrailingComma =
      Except.error "json.decoder.JSONDecodeError" :=
  ⟨rfl, rfl, rfl⟩

/-- C8 (amended): there is no trailing-comma normalization stage — candidate
text is parsed as strict JSON, so whenever the direct parse fails and the
extracted first-to-last-brace block also fails to parse (as happens when the
only defect is a trailing comma before the final brace), the run terminates
fatally instead of repairing the text. -/
theorem normalizer_C8_amended (raw blk : List Char)
    (h1 : pyParse raw = none) (h2 : extract_json_block raw = some blk)
    (h3 : pyParse blk = none) :
    profit_parse_check raw = Except.error "json.decoder.JSONDecodeError" := by
  have ht : try_parse_profit raw = Except.error "json.decoder.JSONDecodeError" := by
    simp only [try_parse_profit, h1, h2, h3]
  simp only [profit_parse_check, ht]

/-- Witness for C8 (amended) at the trailing-comma input. -/
theorem normalizer_C8_witness :
    profit_parse_check exTrailingComma =
      Except.error "json.decoder.JSONDecodeError" :=
  normalizer_C8_amended exTrailingComma exTrailingComma rfl rfl rfl

/-- C9: loading a pool blob whose content is not parseable as JSON (not only
a missing file) yields the freshly initialized default state — version 1,
`review_interval_days` 7, `last_review_date` unset, empty opportunities —
so a corrupted pool file silently discards all previously tracked
opportunities instead of failing the run. -/
theorem corrupt_pool_C9 (s : List Char) (h : pyParse s = none) :
    read_json (some s) init_profit_state = init_profit_state ∧
    init_profit_state =
      PyJson.obj
        [("version", PyJson.num "1"),
         ("review_interval_days", PyJson.num "7"),
         ("last_review_date", PyJson.null),
         ("opportunities", PyJson.arr [])] := by
  constructor
  · show (pyParse s).getD init_profit_state = init_profit_state
    rw [h]
    rfl
  · rfl

/-- Witness for C9 at a concrete corrupted blob. -/
theorem corrupt_pool_C9_witness :
    read_json (some exCorrupt) init_profit_state = init_profit_state :=
  (corrupt_pool_C9 exCorrupt rfl).1

/-- C6 counterexample: when the profit stage succeeds and the healing
generation then fails, the run aborts having already persisted the updated
opportunity pool and the profit daily log — persistence is not
all-or-nothing. -/
theorem persistence_C6_counterexample :
    (main_run exOracleHalf).1 =
      Except.error "[FATAL] DeepSeek request failed after retries: healing" ∧
    (main_run exOracleHalf).2 = [WriteKey.poolState, WriteKey.profitLog] :=
  ⟨rfl, rfl⟩

/-- C6 (amended): persistence is incremental, not all-or-nothing: nothing is
written only when the profit stage itself fails; the pool and profit log are
written as soon as the profit stage succeeds even if a later stage fails;
the twin and healing logs are additionally written once the healing and twin
generations succeed (even if the final posting fails); and the run succeeds
exactly when every stage does. -/
theorem persistence_C6_amended (o : GenOracle) :
    ((main_run o).2 =
      match o.profitResp with
      | none => []
      | some raw =>
        match profit_parse_check raw with
        | Except.error _ => []
        | Except.ok _ =>
          if o.healingOk && o.twinOk
          then [WriteKey.poolState, WriteKey.profitLog,
                WriteKey.twinLog, WriteKey.healingLog]
          else [WriteKey.poolState, WriteKey.profitLog]) ∧
    ((main_run o).1 = Except.ok () ↔
      (∃ raw r, o.profitResp = some raw ∧ profit_parse_check raw = Except.ok r) ∧
        o.healingOk = true ∧ o.twinOk = true ∧ o.postOk = true) := by
  cases hpr : o.profitResp with
  | none => simp [main_run, hpr]
  | some raw =>
    cases hpc : profit_parse_check raw with
    | error e => simp [main_run, hpr, hpc]
    | ok r =>
      cases hh : o.healingOk with
      | false => simp [main_run, hpr, hpc, hh]
      | true =>
        cases ht : o.twinOk with
        | false => simp [main_run, hpr, hpc, hh, ht]
        | true =>
          cases hpo : o.postOk with
          | false => simp [main_run, hpr, hpc, hh, ht, hpo]
          | true => simp [main_run, hpr, hpc, hh, ht, hpo]

end RunDaily
